import Mathlib

/-!
Verification of the `mc_mover` bulk file-copy engine (`src/mclub.py`).

Shallow embedding conventions:
* Paths are Lean `String`s; path manipulation (`os.path.split`, `os.path.join`,
  `os.path.normpath`, `os.path.abspath`, `str.split('/')`) is embedded at the
  character-list level following CPython's `posixpath` implementation (the
  non-Windows branch of the source; `os.path.splitdrive` is the identity on the
  drive-less POSIX form, so `splitdrive(p)[1] = p`).
* The filesystem and every OS call that can fail is an explicit oracle record
  `FS`: `os.stat(...).st_size` is `FS.size : String → Option Nat` (`none` models
  the call raising `OSError`), `os.path.getmtime` is `FS.mtime`,
  `os.statvfs` is `FS.freeSpace` (`none` = raise), `os.walk` output is
  `FS.walkFiles` (already in the `os.path.join(os.path.abspath(r), f)` form the
  source builds), `os.makedirs` / `shutil.copy2` success is `FS.mkdirOk` /
  `FS.copyOk`, and the process working directory used by `os.path.abspath` is
  `FS.cwd`.
* Python runtime errors that the source does not catch are explicit `PyError`
  values threaded through `Except` / result types: `copy_file_to_dest` can raise
  `UnboundLocalError` (its `copy_file_flag` is not assigned on every path) and
  `TypeError` (`self.filesize += None`); the copy loop can raise
  `ZeroDivisionError`; `get_dest_filepath` can raise `IndexError` (`fp[-1]` on
  an empty list).
* The code is Python 2 (PySide era): `None` compares smaller than every
  integer, which `pyGT` models for the `Larger` size comparison.
* `self.must_run` is read by the worker while the GUI thread may write it; each
  read is modelled by sampling `mustRun : Nat → Bool` at a fresh read index.
* Wall-clock timing (`datetime.now`, the runtime fields of the completion
  signal) and the GB display conversion of the completion signal are
  presentation-only and not modelled; the completion event keeps the file-count
  payload. The progress arithmetic `int((float(a)/float(b))*100)` is modelled
  bit-exactly in IEEE-754 double precision: values are dyadic rationals
  `mantissa * 2^exponent`, each of the conversion, the division and the
  multiplication rounds its exact result to 53 significant bits with
  round-half-to-even, and `int(...)` truncates (all quantities are in the
  doubles' normal range).  The double rounding makes the emitted percent differ
  from `floor(100*a/b)` on some inputs: 29 bytes of 100 emits 28, not 29.
-/

namespace MClub

/-- Python runtime errors that `mclub.py` can raise on paths it does not guard. -/
inductive PyError
  | unboundLocal   -- `copy_file_flag` read but never assigned
  | typeError      -- `self.filesize += None`
  | zeroDivision   -- `float(filecopy.filesize) / float(filesize)` with total 0
  | indexError     -- `fp[-1]` on an empty segment list
  | osError        -- uncaught `os.statvfs` failure
  deriving DecidableEq, Repr

/-- Overwrite option as sent in the job dictionary: `None` or one of the three
strings; `copy_file_to_dest` matches on the three strings and treats everything
else (including `None`) as "do not overwrite". -/
inductive OverwritePolicy
  | none | larger | newer | either
  deriving DecidableEq, Repr

/-- Oracle record for the OS interface used by the engine (see module comment). -/
structure FS where
  exists_ : String → Bool
  isfile : String → Bool
  size : String → Option Nat
  mtime : String → Option Int
  freeSpace : String → Option Nat
  winFree : String → Nat
  mkdirOk : String → Bool
  copyOk : String → String → Bool
  walkFiles : String → List String
  cwd : String

/-- Effect of a successful `os.makedirs(destdir)`: `destdir` now exists. -/
def FS.mkdirAt (fs : FS) (d : String) : FS :=
  { fs with exists_ := fun p => if p = d then true else fs.exists_ p }

/-- Effect of a successful `shutil.copy2(src, dst)`: `dst` exists and has the
source's size and (metadata-preserving copy) modification time. -/
def FS.afterCopy (fs : FS) (src dst : String) : FS :=
  { fs with
    exists_ := fun p => if p = dst then true else fs.exists_ p
    size := fun p => if p = dst then fs.size src else fs.size p
    mtime := fun p => if p = dst then fs.mtime src else fs.mtime p }

/-! ## POSIX path manipulation (`posixpath`), at the character-list level -/

/-- `str.split('/')` of CPython on a character list. -/
def splitSl : List Char → List (List Char)
  | [] => [[]]
  | c :: rest =>
    if c = '/' then [] :: splitSl rest
    else
      match splitSl rest with
      | g :: gs => (c :: g) :: gs
      | [] => [[c]]

/-- `os.path.split` (POSIX): split at the last slash; trailing slashes are
stripped from the head unless the head is all slashes. -/
def posixSplit (p : List Char) : List Char × List Char :=
  let r := p.reverse
  let tailRev := r.takeWhile (fun c => ¬ c = '/')
  let headRev := r.dropWhile (fun c => ¬ c = '/')
  let head :=
    if headRev = [] ∨ headRev.reverse.all (fun c => c = '/') then headRev.reverse
    else (headRev.dropWhile (fun c => c = '/')).reverse
  (head, tailRev.reverse)

/-- `os.path.split(p)[0]`, on strings (used for the destination directory). -/
def dirnameOf (p : String) : String := String.mk (posixSplit p.data).1

/-- One step of `posixpath.join`: `join(path, b)`. -/
def joinOne (path comp : String) : String :=
  if comp.data.head? = some '/' then comp
  else if path = "" ∨ path.data.getLast? = some '/' then path ++ comp
  else path ++ "/" ++ comp

/-- `os.path.join(base, *comps)` (POSIX). -/
def posixJoin (base : String) (comps : List String) : String :=
  comps.foldl joinOne base

/-- The component-processing loop of `posixpath.normpath`; `acc` holds
`new_comps` in reverse. -/
def normSteps (slashes : Bool) : List (List Char) → List (List Char) → List (List Char)
  | [], acc => acc.reverse
  | c :: rest, acc =>
    if c = ([] : List Char) ∨ c = ['.'] then normSteps slashes rest acc
    else if ¬ c = ['.', '.'] ∨ (¬ slashes ∧ acc = []) ∨ acc.head? = some ['.', '.'] then
      normSteps slashes rest (c :: acc)
    else if ¬ acc = [] then normSteps slashes rest acc.tail
    else normSteps slashes rest acc

/-- `'/'.join(comps)`. -/
def joinComps : List (List Char) → List Char
  | [] => []
  | [c] => c
  | c :: rest => c ++ '/' :: joinComps rest

/-- The final `return path or '.'` of `posixpath.normpath`. -/
def orDot (res : List Char) : String :=
  if res = [] then "." else String.mk res

/-- `posixpath.normpath`. -/
def normpath (path : String) : String :=
  let cs := path.data
  if cs = [] then "."
  else
    let slashes : Nat :=
      if cs.take 3 = ['/', '/', '/'] then 1
      else if cs.take 2 = ['/', '/'] then 2
      else if cs.take 1 = ['/'] then 1
      else 0
    let newComps := normSteps (0 < slashes) (splitSl cs) []
    orDot (List.replicate slashes '/' ++ joinComps newComps)

/-- `os.path.abspath` (POSIX): absolutize against the working directory, then
normalize. -/
def abspath (cwd path : String) : String :=
  if path.data.head? = some '/' then normpath path
  else normpath (joinOne cwd path)

/-! ## `FileOperations` -/

/-- The `while 1` loop of `FileOperations.split_path`, with fuel (each recursive
step shortens the path, so `length + 1` fuel is never exhausted).  The source
appends segments to `folders` and returns the reversed list; here `folders`
accumulates by prepending, which is already that reversed order, so both exits
return the accumulator directly. -/
def splitPathLoop : Nat → List Char → List (List Char) → List (List Char)
  | 0, _, folders => folders
  | fuel + 1, path, folders =>
    let s := posixSplit path
    if ¬ s.2 = [] then
      if s.1.length = 0 then s.2 :: folders
      else splitPathLoop fuel s.1 (s.2 :: folders)
    else
      if ¬ s.1 = [] then s.1 :: folders else folders

/-- `FileOperations.split_path`: `os.path.splitdrive(path)[1][1:]` (identity on
POSIX followed by dropping the first character), then the split loop. -/
def split_path (path : String) : List String :=
  let p := path.data.drop 1
  (splitPathLoop (p.length + 1) p []).map String.mk

/-- `FileOperations.get_dest_filepath`.  `none` models the `IndexError` that
`fp[-1]` raises when the segment list is empty. -/
def get_dest_filepath (cwd : String) (filepath destpath : String) (flattencount : Int) :
    Option String :=
  let fp := split_path filepath
  if flattencount > 0 then
    if (fp.length : Int) > flattencount then
      some (abspath cwd (posixJoin destpath (fp.drop flattencount.toNat)))
    else
      match fp.getLast? with
      | some last => some (abspath cwd (posixJoin destpath [last]))
      | Option.none => Option.none
  else some (abspath cwd (posixJoin destpath fp))

/-- `FileOperations.get_free_space`: Windows branch returns the `ctypes`
out-parameter (which the API leaves at its initial `0` on failure); the POSIX
branch calls `os.statvfs`, whose failure (`none`) is an uncaught exception. -/
def get_free_space (win : Bool) (fs : FS) (folder : String) : Option Nat :=
  if win then some (fs.winFree folder) else fs.freeSpace folder

/-- `FileOperations.get_file_size(filepath, ret=True)`: returns the stat size;
on a stat failure the `except` branch runs `self.filesize += 0` (a no-op) and
the function falls through, returning Python `None`. -/
def get_file_size_ret (fs : FS) (filepath : String) : Option Nat :=
  fs.size filepath

/-- `FileOperations.get_file_age`: `os.path.getmtime`, `0` on failure. -/
def get_file_age (fs : FS) (filepath : String) : Int :=
  (fs.mtime filepath).getD 0

/-- Python 2 `>` on an int-or-None pair: `None` is smaller than every integer. -/
def pyGT : Option Nat → Option Nat → Bool
  | Option.none, _ => false
  | some _, Option.none => true
  | some a, some b => decide (b < a)

/-- `FileOperations.get_file_list_for_dir` run on a fresh `FileOperations`
instance (as `CopyWorker.run` does per source entry): returns the
`(filecount, filesize, filelist)` the call leaves in the instance.  A non-file
entry is walked (`os.walk` yields nothing for a nonexistent path); sizes use
`get_file_size` with `ret` unset, which degrades a stat failure to `+= 0`. -/
def get_file_list_for_dir (fs : FS) (filepath : String) : Nat × Nat × List String :=
  if ¬ fs.isfile filepath then
    let files := fs.walkFiles filepath
    (files.length, (files.map (fun f => (fs.size f).getD 0)).sum, files)
  else
    (1, (fs.size filepath).getD 0, [filepath])

/-- The scan prologue of `CopyWorker.run` (lines 194–202): per source entry a
fresh `FileOperations` is scanned and its count, size and list are accumulated
with `+=` / `extend` — with no deduplication. -/
def scanTotals (fs : FS) (pathlist : List String) : Nat × Nat × List String :=
  pathlist.foldl
    (fun acc p =>
      let e := get_file_list_for_dir fs p
      (acc.1 + e.1, acc.2.1 + e.2.1, acc.2.2 ++ e.2.2))
    (0, 0, [])

/-- The `copy_file_flag` decision block of `copy_file_to_dest` (lines 145–159),
with the source's partial assignment modelled as an `Option Bool`: on the
`larger` / `newer` branches with a false condition no assignment happens
(`none`), and the subsequent `if copy_file_flag:` raises `UnboundLocalError`. -/
def overwriteDecision (fs : FS) (filepath destination : String)
    (overwrite : OverwritePolicy) : Option Bool :=
  if fs.exists_ destination then
    match overwrite with
    | OverwritePolicy.larger =>
      if pyGT (get_file_size_ret fs filepath) (get_file_size_ret fs destination) then some true
      else Option.none
    | OverwritePolicy.newer =>
      if get_file_age fs filepath > get_file_age fs destination then some true
      else Option.none
    | OverwritePolicy.either => some true
    | OverwritePolicy.none => some false
  else some true

/-- The `os.makedirs` attempt of `copy_file_to_dest` (lines 161–166): only run
when `destdir` does not exist; a failure is printed and execution continues. -/
def mkdirsFor (fs : FS) (destdir : String) : FS :=
  if fs.exists_ destdir then fs
  else if fs.mkdirOk destdir then fs.mkdirAt destdir else fs

/-- The copy execution block of `copy_file_to_dest` (lines 160–173): attempt
`makedirs`, then attempt `shutil.copy2` regardless; a copy failure is printed
and the counters stay unchanged; on success `self.filesize += source_filesize`
(a `TypeError` when the source could not be statted, since `source_filesize`
is then `None`) and `self.filecount += 1`. -/
def copyExec (fs : FS) (filepath destination : String) (filesize filecount : Nat) :
    Except PyError (FS × Nat × Nat) :=
  if (mkdirsFor fs (dirnameOf destination)).copyOk filepath destination then
    match get_file_size_ret fs filepath with
    | Option.none => Except.error PyError.typeError
    | some s =>
      Except.ok ((mkdirsFor fs (dirnameOf destination)).afterCopy filepath destination,
        filesize + s, filecount + 1)
  else Except.ok (mkdirsFor fs (dirnameOf destination), filesize, filecount)

/-- `FileOperations.copy_file_to_dest`, acting on the instance counters
`(filesize, filecount)`: decide via `copy_file_flag`, then (only if the flag
was assigned `True`) run the copy execution block. -/
def copy_file_to_dest (fs : FS) (filepath destination : String)
    (overwrite : OverwritePolicy) (filesize filecount : Nat) :
    Except PyError (FS × Nat × Nat) :=
  match overwriteDecision fs filepath destination overwrite with
  | Option.none => Except.error PyError.unboundLocal
  | some false => Except.ok (fs, filesize, filecount)
  | some true => copyExec fs filepath destination filesize filecount

/-! ## `CopyWorker.run` -/

/-- Qt signals emitted by the worker: `copyProgress(percent, filecopy.filecount,
filecount)`, `spaceProblem(filesize, available_space)`, and
`copyComplete(filecount, …)` (its display-size and runtime payload is
presentation-only and not modelled). -/
inductive Event
  | copyProgress (percent filesCopied filesTotal : Nat)
  | spaceProblem (required available : Nat)
  | copyComplete (filesTotal : Nat)
  deriving DecidableEq, Repr

/-- How a `CopyWorker.run` invocation ends. -/
inductive Outcome
  | completed (filesTotal : Nat)
  | spaceProblem (required available : Nat)
  | cancelled
  | crashed (e : PyError)
  deriving DecidableEq, Repr

/-- Loop state of the copy phase: the `filecopy` instance (`fs` after its
copies, `filesize`, `filecount`) and the number of `self.must_run` reads
performed so far. -/
structure CopySt where
  fs : FS
  csize : Nat
  ccount : Nat
  reads : Nat

/-- Per-job parameters of the copy loop: the cancellation-flag read oracle, the
working directory, the destination, flatten count, overwrite option, and the
scan totals used as the progress denominator and event payloads. -/
structure Ctx where
  mustRun : Nat → Bool
  cwd : String
  destdir : String
  flattencount : Int
  overwrite : OverwritePolicy
  totalSize : Nat
  totalCount : Nat

/-- Result of one iteration of the copy loop. -/
inductive StepRes
  | ok (st : CopySt) (ev : Option Event)
  | cancelled
  | crashed (e : PyError)

/-! ### IEEE-754 double-precision model for line 211's percent arithmetic

A nonnegative double is represented by its exact dyadic value as a pair
`(mantissa : Nat, exponent : Int)` meaning `mantissa * 2^exponent`.  Each
operation rounds its exact result to 53 significant bits with IEEE-754's
round-half-to-even; the values arising here (file-size ratios times 100) are
far from the subnormal and overflow ranges, so those regimes need no model. -/

/-- `⌊log₂ n⌋` for `n ≥ 1`, by fuel (pass `n` itself as fuel). -/
def log2F : Nat → Nat → Nat
  | 0, _ => 0
  | fuel + 1, n => if 2 ≤ n then log2F fuel (n / 2) + 1 else 0

/-- Round the ratio `N / D` (with `D > 0`) to the nearest integer, ties to
even. -/
def roundHalfEven (N D : Nat) : Nat :=
  if 2 * (N % D) < D then N / D
  else if D < 2 * (N % D) then N / D + 1
  else if N / D % 2 = 0 then N / D else N / D + 1

/-- Round the positive value `(n / d) * 2^E` (`n, d ≥ 1`) to 53 significant
bits, round-half-to-even: the result's first component is the rounded mantissa
`∈ [2^52, 2^53]`, its second the matching exponent. -/
def roundRat (n d : Nat) (E : Int) : Nat × Int :=
  let L : Int := (log2F n n : Int) - (log2F d d : Int)
  let e2 : Int := if d * 2 ^ L.toNat ≤ n * 2 ^ (-L).toNat then L else L - 1
  let m := roundHalfEven (n * 2 ^ (52 - e2).toNat) (d * 2 ^ (e2 - 52).toNat)
  (m, e2 - 52 + E)

/-- `float(a)` for a nonnegative int `a`: exact below `2^53`, else rounded
half-to-even like CPython's int-to-float conversion. -/
def pyFloatOfNat (a : Nat) : Nat × Int :=
  if a = 0 then (0, 0) else roundRat a 1 0

/-- IEEE double division `x / y` for `y ≠ 0`: the exact quotient, rounded. -/
def floatDiv (x y : Nat × Int) : Nat × Int :=
  if x.1 = 0 then (0, 0) else roundRat x.1 y.1 (x.2 - y.2)

/-- IEEE double multiplication by the (exactly representable) literal `100`:
the exact product, rounded. -/
def floatMul100 (x : Nat × Int) : Nat × Int :=
  if x.1 = 0 then (0, 0) else roundRat (x.1 * 100) 1 x.2

/-- `int(x)` for a nonnegative double `x`: truncation toward zero. -/
def floatToInt (x : Nat × Int) : Nat :=
  if 0 ≤ x.2 then x.1 * 2 ^ x.2.toNat else x.1 / 2 ^ (-x.2).toNat

/-- Line 211's `int((float(filecopy.filesize) / float(filesize)) * 100)`,
computed in IEEE-754 double arithmetic (the `filesize = 0` crash is handled by
the caller before this expression is evaluated). -/
def progress_percent (a b : Nat) : Nat :=
  floatToInt (floatMul100 (floatDiv (pyFloatOfNat a) (pyFloatOfNat b)))

/-- One iteration of the `for file in sorted(set(filelist))` loop (lines
207–219): check `must_run`; compute the destination (`IndexError` possible);
run `copy_file_to_dest` (its uncaught errors kill the thread); compute
`int((float(filecopy.filesize)/float(filesize))*100)` in double arithmetic
(`ZeroDivisionError` when the scan total is 0); re-read `must_run` and emit
`copyProgress` only if it is still set. -/
def copyStep (ctx : Ctx) (file : String) (st : CopySt) : StepRes :=
  if ctx.mustRun st.reads then
    match get_dest_filepath ctx.cwd file ctx.destdir ctx.flattencount with
    | Option.none => StepRes.crashed PyError.indexError
    | some destfilepath =>
      match copy_file_to_dest st.fs file destfilepath ctx.overwrite st.csize st.ccount with
      | Except.error e => StepRes.crashed e
      | Except.ok (fs', csize', ccount') =>
        if ctx.totalSize = 0 then StepRes.crashed PyError.zeroDivision
        else if ctx.mustRun (st.reads + 1) then
          StepRes.ok ⟨fs', csize', ccount', st.reads + 2⟩
            (some (Event.copyProgress (progress_percent csize' ctx.totalSize) ccount'
              ctx.totalCount))
        else StepRes.ok ⟨fs', csize', ccount', st.reads + 2⟩ Option.none
  else StepRes.cancelled

/-- Result of the whole copy loop, carrying the events emitted so far. -/
inductive LoopRes
  | done (st : CopySt) (events : List Event)
  | cancelled (st : CopySt) (events : List Event)
  | crashed (st : CopySt) (events : List Event) (e : PyError)

/-- The copy loop over the sorted, deduplicated file list. -/
def copyLoop (ctx : Ctx) : List String → CopySt → List Event → LoopRes
  | [], st, evs => LoopRes.done st evs
  | f :: rest, st, evs =>
    match copyStep ctx f st with
    | StepRes.ok st' (some ev) => copyLoop ctx rest st' (evs ++ [ev])
    | StepRes.ok st' Option.none => copyLoop ctx rest st' evs
    | StepRes.cancelled => LoopRes.cancelled st evs
    | StepRes.crashed e => LoopRes.crashed st evs e

/-- Events accumulated in a loop result. -/
def LoopRes.events : LoopRes → List Event
  | LoopRes.done _ e => e
  | LoopRes.cancelled _ e => e
  | LoopRes.crashed _ e _ => e

/-- Final state of a loop result. -/
def LoopRes.state : LoopRes → CopySt
  | LoopRes.done st _ => st
  | LoopRes.cancelled st _ => st
  | LoopRes.crashed st _ _ => st

/-- `sorted(set(filelist))`: the deduplicated file list in lexicographic
order. -/
def sortedSet (l : List String) : List String :=
  List.insertionSort (· ≤ ·) l.dedup

/-- Observable result of one `CopyWorker.run`: the emitted signal sequence, the
way the thread ended, the final filesystem, and the `filecopy` counters
(`filecount` = files actually copied, `filesize` = bytes actually copied). -/
structure RunResult where
  events : List Event
  outcome : Outcome
  fs : FS
  copiedCount : Nat
  copiedBytes : Nat

/-- `CopyWorker.run` (lines 185–228) after the job dictionary has been
received: query free space (an uncaught `statvfs` failure kills the thread
before any signal); accumulate the scan totals; strict capacity check; on
success emit the initial `copyProgress('0','0',filecount)` signal and run the
copy loop; afterwards emit `copyComplete`.  On a cancelled check the worker
just returns (no further signal). -/
def run (win : Bool) (fs : FS) (mustRun : Nat → Bool) (pathlist : List String)
    (destdir : String) (flattencount : Int) (overwrite : OverwritePolicy) : RunResult :=
  match get_free_space win fs destdir with
  | Option.none => ⟨[], Outcome.crashed PyError.osError, fs, 0, 0⟩
  | some available_space =>
    let s := scanTotals fs pathlist
    let filecount := s.1
    let filesize := s.2.1
    let filelist := s.2.2
    if filesize < available_space then
      let ctx : Ctx := ⟨mustRun, fs.cwd, destdir, flattencount, overwrite, filesize, filecount⟩
      match copyLoop ctx (sortedSet filelist) ⟨fs, 0, 0, 0⟩ [Event.copyProgress 0 0 filecount] with
      | LoopRes.done st evs =>
        ⟨evs ++ [Event.copyComplete filecount], Outcome.completed filecount, st.fs, st.ccount, st.csize⟩
      | LoopRes.cancelled st evs => ⟨evs, Outcome.cancelled, st.fs, st.ccount, st.csize⟩
      | LoopRes.crashed st evs e => ⟨evs, Outcome.crashed e, st.fs, st.ccount, st.csize⟩
    else
      ⟨[Event.spaceProblem filesize available_space],
        Outcome.spaceProblem filesize available_space, fs, 0, 0⟩

/-- The `filesCopied` payloads of the progress events of a signal sequence. -/
def filesCompletedSeq (evs : List Event) : List Nat :=
  evs.filterMap fun e =>
    match e with
    | Event.copyProgress _ k _ => some k
    | _ => Option.none

/-! ## Helper lemmas -/

theorem orDot_ne_empty (res : List Char) : orDot res ≠ "" := by
  unfold orDot
  split
  · decide
  · next hres =>
    intro h
    exact hres (congrArg String.data h)

theorem normpath_ne_empty (p : String) : normpath p ≠ "" := by
  simp only [normpath]
  split
  · decide
  · exact orDot_ne_empty _

theorem abspath_ne_empty (cwd p : String) : abspath cwd p ≠ "" := by
  unfold abspath
  split <;> exact normpath_ne_empty _

/-- A nonempty list has a last element. -/
theorem getLast?_of_ne_nil {α : Type} {l : List α} (h : l ≠ []) :
    ∃ x, l.getLast? = some x := by
  cases hl : l.getLast? with
  | none => exact absurd (List.getLast?_eq_none_iff.mp hl) h
  | some x => exact ⟨x, rfl⟩

@[simp] theorem mkdirsFor_copyOk (fs : FS) (d : String) :
    (mkdirsFor fs d).copyOk = fs.copyOk := by
  unfold mkdirsFor
  split
  · rfl
  · split <;> rfl

/-- A successful `copy_file_to_dest` left the counters unchanged (skip, or a
failed copy attempt) or added the source size and one file (successful copy). -/
theorem copy_file_to_dest_counters (fs : FS) (src dst : String) (ow : OverwritePolicy)
    (fsize fcount : Nat) (fs' : FS) (b c : Nat)
    (h : copy_file_to_dest fs src dst ow fsize fcount = Except.ok (fs', b, c)) :
    (b = fsize ∧ c = fcount) ∨ ∃ s, fs.size src = some s ∧ b = fsize + s ∧ c = fcount + 1 := by
  unfold copy_file_to_dest at h
  split at h
  · exact absurd h (by simp)
  · left
    obtain ⟨rfl, rfl, rfl⟩ : fs = fs' ∧ fsize = b ∧ fcount = c := by
      simpa using h
    exact ⟨rfl, rfl⟩
  · unfold copyExec at h
    split at h
    · split at h
      · exact absurd h (by simp)
      · next s hs =>
        right
        obtain ⟨-, rfl, rfl⟩ : _ ∧ fsize + s = b ∧ fcount + 1 = c := by
          simpa using h
        exact ⟨s, hs, rfl, rfl⟩
    · left
      obtain ⟨-, rfl, rfl⟩ : _ ∧ fsize = b ∧ fcount = c := by
        simpa using h
      exact ⟨rfl, rfl⟩

/-- Structure of a completed loop iteration: the file counter grows by 0 or 1,
the byte counter never shrinks, and an emitted event carries the
double-arithmetic percent of the post-decision byte counter and the
post-decision file counter. -/
theorem copyStep_ok (ctx : Ctx) (f : String) (st st' : CopySt) (oev : Option Event)
    (h : copyStep ctx f st = StepRes.ok st' oev) :
    (st'.ccount = st.ccount ∨ st'.ccount = st.ccount + 1) ∧ st.csize ≤ st'.csize ∧
    ∀ ev, oev = some ev →
      ev = Event.copyProgress (progress_percent st'.csize ctx.totalSize) st'.ccount
        ctx.totalCount := by
  unfold copyStep at h
  split at h
  · split at h
    · exact absurd h (by simp)
    · split at h
      · exact absurd h (by simp)
      · next fs' csize' ccount' hcopy =>
        have hcnt := copy_file_to_dest_counters _ _ _ _ _ _ _ _ _ hcopy
        have hsz : st.csize ≤ csize' := by
          rcases hcnt with ⟨rfl, -⟩ | ⟨s, -, rfl, -⟩ <;> omega
        have hcc : ccount' = st.ccount ∨ ccount' = st.ccount + 1 := by
          rcases hcnt with ⟨-, rfl⟩ | ⟨s, -, -, rfl⟩ <;> omega
        split at h
        · exact absurd h (by simp)
        · split at h
          · cases h
            exact ⟨hcc, hsz, fun ev hev => by cases hev; rfl⟩
          · cases h
            exact ⟨hcc, hsz, fun ev hev => by cases hev⟩
  · exact absurd h (by simp)

/-- The copy loop only appends to the event accumulator. -/
theorem copyLoop_events_append (ctx : Ctx) :
    ∀ (files : List String) (st : CopySt) (evs : List Event),
      ∃ extra, (copyLoop ctx files st evs).events = evs ++ extra := by
  intro files
  induction files with
  | nil => exact fun st evs => ⟨[], by simp [copyLoop, LoopRes.events]⟩
  | cons f rest ih =>
    intro st evs
    unfold copyLoop
    cases hstep : copyStep ctx f st with
    | ok st' oev =>
      cases oev with
      | some ev =>
        obtain ⟨extra, hx⟩ := ih st' (evs ++ [ev])
        exact ⟨ev :: extra, by simp [hx]⟩
      | none => exact ih st' evs
    | cancelled => exact ⟨[], by simp [LoopRes.events]⟩
    | crashed e => exact ⟨[], by simp [LoopRes.events]⟩

/-- Each scan entry's count equals the length of the file list it produced. -/
theorem get_file_list_for_dir_count (fs : FS) (p : String) :
    (get_file_list_for_dir fs p).1 = (get_file_list_for_dir fs p).2.2.length := by
  unfold get_file_list_for_dir
  split <;> simp

/-- Closed form of the scan fold: per-entry counts, sizes and lists are
accumulated independently (and, in particular, without deduplication). -/
theorem scanTotals_foldl (fs : FS) (pathlist : List String) :
    ∀ acc : Nat × Nat × List String,
      pathlist.foldl
        (fun acc p =>
          let e := get_file_list_for_dir fs p
          (acc.1 + e.1, acc.2.1 + e.2.1, acc.2.2 ++ e.2.2)) acc =
      (acc.1 + (pathlist.map fun p => (get_file_list_for_dir fs p).1).sum,
       acc.2.1 + (pathlist.map fun p => (get_file_list_for_dir fs p).2.1).sum,
       acc.2.2 ++ (pathlist.map fun p => (get_file_list_for_dir fs p).2.2).flatten) := by
  induction pathlist with
  | nil => intro acc; simp
  | cons p rest ih =>
    intro acc
    rw [List.foldl_cons, ih]
    simp [add_assoc]

/-- `scanTotals` in closed form. -/
theorem scanTotals_eq (fs : FS) (pathlist : List String) :
    scanTotals fs pathlist =
      ((pathlist.map fun p => (get_file_list_for_dir fs p).1).sum,
       (pathlist.map fun p => (get_file_list_for_dir fs p).2.1).sum,
       (pathlist.map fun p => (get_file_list_for_dir fs p).2.2).flatten) := by
  unfold scanTotals
  rw [scanTotals_foldl]
  simp

/-- The scan count equals the length of the accumulated (un-deduplicated) file
list. -/
theorem scanTotals_count_eq_length (fs : FS) (pathlist : List String) :
    (scanTotals fs pathlist).1 = (scanTotals fs pathlist).2.2.length := by
  rw [scanTotals_eq]
  simp only [List.length_flatten, List.map_map]
  exact congrArg List.sum (List.map_congr_left fun p _ => get_file_list_for_dir_count fs p)

/-- A characterization of `run` once the free-space query and the scan totals
are known. -/
theorem run_eq (win : Bool) (fs : FS) (mustRun : Nat → Bool) (pathlist : List String)
    (destdir : String) (fc : Int) (ow : OverwritePolicy) (a c b : Nat) (l : List String)
    (hfree : get_free_space win fs destdir = some a)
    (hscan : scanTotals fs pathlist = (c, b, l)) :
    run win fs mustRun pathlist destdir fc ow =
      if b < a then
        match copyLoop ⟨mustRun, fs.cwd, destdir, fc, ow, b, c⟩ (sortedSet l)
            ⟨fs, 0, 0, 0⟩ [Event.copyProgress 0 0 c] with
        | LoopRes.done st evs =>
          ⟨evs ++ [Event.copyComplete c], Outcome.completed c, st.fs, st.ccount, st.csize⟩
        | LoopRes.cancelled st evs => ⟨evs, Outcome.cancelled, st.fs, st.ccount, st.csize⟩
        | LoopRes.crashed st evs e => ⟨evs, Outcome.crashed e, st.fs, st.ccount, st.csize⟩
      else ⟨[Event.spaceProblem b a], Outcome.spaceProblem b a, fs, 0, 0⟩ := by
  unfold run
  rw [hfree]
  simp only [hscan]

/-! ## Claim C1 -/

/-- Filesystem for C1: destination exists, source (3 bytes) not larger than
destination (5 bytes). -/
def fsC1 : FS :=
  { exists_ := fun p => p = "/dst/a", isfile := fun _ => false
    size := fun p => if p = "/src/a" then some 3 else if p = "/dst/a" then some 5 else Option.none
    mtime := fun _ => Option.none, freeSpace := fun _ => Option.none, winFree := fun _ => 0
    mkdirOk := fun _ => true, copyOk := fun _ _ => true, walkFiles := fun _ => [], cwd := "/" }

/-- Claim C1: the spec's overwrite-policy table says that with policy `Larger`
and a source not strictly larger than the existing destination the file is
skipped (no copy, no error).  The code instead never assigns `copy_file_flag`
on that path, so `if copy_file_flag:` raises `UnboundLocalError` — evaluated
here at source size 3 vs destination size 5. -/
theorem c1_larger_not_greater_crashes :
    copy_file_to_dest fsC1 "/src/a" "/dst/a" OverwritePolicy.larger 0 0 =
      Except.error PyError.unboundLocal := by rfl

/-! ## Claim C5 -/

/-- Claim C5, counterexample: `get_dest_filepath` is not total.  The source
path `"/"` has an empty segment list (`splitdrive`-then-`[1:]` leaves the empty
string), so with `flattencount = 1` the fallback `fp[-1]` indexes an empty list
and raises `IndexError` (`none`), contradicting "total … never fails". -/
theorem c5_counterexample :
    get_dest_filepath "/" "/" "/out" 1 = Option.none := by rfl

/-- Claim C5 as amended: for every source path whose segment list is non-empty
(every real file path has at least its filename segment), or whenever
`flattenCount ≤ 0`, `get_dest_filepath` succeeds deterministically with a
non-empty destination path; the `IndexError` arises only for a segment-less
source path (such as `"/"` or `""`) combined with `flattenCount > 0`. -/
theorem c5_total_on_nonempty (cwd filepath destpath : String) (fc : Int)
    (h : split_path filepath ≠ [] ∨ fc ≤ 0) :
    ∃ d, get_dest_filepath cwd filepath destpath fc = some d ∧ d ≠ "" := by
  unfold get_dest_filepath
  by_cases hfc : fc > 0
  · rw [if_pos hfc]
    by_cases hlen : ((split_path filepath).length : Int) > fc
    · exact ⟨_, by rw [if_pos hlen], abspath_ne_empty _ _⟩
    · have hne : split_path filepath ≠ [] := by
        rcases h with h | h
        · exact h
        · omega
      obtain ⟨x, hx⟩ := getLast?_of_ne_nil hne
      rw [if_neg hlen, hx]
      exact ⟨_, rfl, abspath_ne_empty _ _⟩
  · rw [if_neg hfc]
    exact ⟨_, rfl, abspath_ne_empty _ _⟩

/-- Witness for C5: the concrete source path `"/a/b"` has segments, and the
amended theorem yields a non-empty destination for it. -/
theorem c5_witness :
    (split_path "/a/b" ≠ [] ∨ (1 : Int) ≤ 0) ∧
    ∃ d, get_dest_filepath "/" "/a/b" "/out" 1 = some d ∧ d ≠ "" := by
  refine ⟨Or.inl (by decide), c5_total_on_nonempty "/" "/a/b" "/out" 1 (Or.inl (by decide))⟩

/-! ## Claim C7 -/

/-- Filesystem for C7: nothing exists at the destination side, every
`os.makedirs` fails, every `shutil.copy2` succeeds, the source file is 4
bytes. -/
def fsC7 : FS :=
  { exists_ := fun _ => false, isfile := fun _ => false
    size := fun p => if p = "/s/x" then some 4 else Option.none
    mtime := fun _ => Option.none, freeSpace := fun _ => Option.none, winFree := fun _ => 0
    mkdirOk := fun _ => false, copyOk := fun _ _ => true, walkFiles := fun _ => [], cwd := "/" }

/-- Claim C7, counterexample: the claim says a directory-creation failure
abandons that file's copy.  Here `makedirs` on the missing parent `/d/out`
fails, yet the copy is still attempted and (the copy succeeding) the file IS
copied and the counters increment to `(4 bytes, 1 file)` — the copy was not
abandoned. -/
theorem c7_counterexample :
    fsC7.exists_ (dirnameOf "/d/out/x") = false ∧
    fsC7.mkdirOk (dirnameOf "/d/out/x") = false ∧
    copy_file_to_dest fsC7 "/s/x" "/d/out/x" OverwritePolicy.none 0 0 =
      Except.ok (fsC7.afterCopy "/s/x" "/d/out/x", 4, 1) := ⟨rfl, rfl, rfl⟩

/-- Claim C7 as amended: per-file failures are non-fatal and scoped to the
file, but a directory-creation failure does NOT abandon the copy — the copy is
attempted regardless of how `makedirs` fared (the result below does not depend
on `mkdirOk`), the function always returns normally for a fresh destination of
a stat-able source, and the running counters increment exactly when
`shutil.copy2` succeeds. -/
theorem c7_copy_attempted_nonfatal (fs : FS) (src dst : String) (ow : OverwritePolicy)
    (fsize fcount s : Nat) (hs : fs.size src = some s) (hex : fs.exists_ dst = false) :
    ∃ fs', copy_file_to_dest fs src dst ow fsize fcount =
      Except.ok (fs',
        if fs.copyOk src dst then fsize + s else fsize,
        if fs.copyOk src dst then fcount + 1 else fcount) := by
  unfold copy_file_to_dest overwriteDecision
  rw [hex]
  simp only [Bool.false_eq_true, if_false]
  unfold copyExec
  have hret : get_file_size_ret fs src = some s := hs
  rw [mkdirsFor_copyOk, hret]
  cases hc : fs.copyOk src dst with
  | false =>
    refine ⟨mkdirsFor fs (dirnameOf dst), ?_⟩
    simp
  | true =>
    refine ⟨(mkdirsFor fs (dirnameOf dst)).afterCopy src dst, ?_⟩
    simp

/-- Witness for C7: a concrete stat-able source and fresh destination. -/
theorem c7_witness :
    fsC7.size "/s/x" = some 4 ∧ fsC7.exists_ "/d/x" = false ∧
    ∃ fs', copy_file_to_dest fsC7 "/s/x" "/d/x" OverwritePolicy.either 0 0 =
      Except.ok (fs',
        if fsC7.copyOk "/s/x" "/d/x" then 0 + 4 else 0,
        if fsC7.copyOk "/s/x" "/d/x" then 0 + 1 else 0) :=
  ⟨rfl, rfl, c7_copy_attempted_nonfatal fsC7 "/s/x" "/d/x" OverwritePolicy.either 0 0 4 rfl rfl⟩

/-! ## Claim C9 -/

/-- Filesystem for C9: `os.statvfs` fails on every path. -/
def fsC9 : FS :=
  { exists_ := fun _ => false, isfile := fun p => p = "/s/x"
    size := fun p => if p = "/s/x" then some 1 else Option.none
    mtime := fun _ => Option.none, freeSpace := fun _ => Option.none, winFree := fun _ => 0
    mkdirOk := fun _ => true, copyOk := fun _ _ => true, walkFiles := fun _ => [], cwd := "/" }

/-- Claim C9, counterexample: the claim says a free-space query failure is
treated as zero bytes available and routes the job to InsufficientSpace.  On
the POSIX branch the `os.statvfs` failure is uncaught: the worker dies with the
exception, emitting no event at all — in particular no InsufficientSpace
event. -/
theorem c9_counterexample :
    (run false fsC9 (fun _ => true) ["/s/x"] "/d" 0 OverwritePolicy.none).events = [] ∧
    (run false fsC9 (fun _ => true) ["/s/x"] "/d" 0 OverwritePolicy.none).outcome =
      Outcome.crashed PyError.osError := ⟨rfl, rfl⟩

/-- Claim C9 as amended: on the POSIX branch a free-space stat failure is NOT
degraded to zero available — `get_free_space` has no exception handler, so the
`statvfs` error propagates and kills the worker before any signal is emitted
(only the Windows branch returns the out-parameter's default 0 on API
failure). -/
theorem c9_posix_statvfs_crash (fs : FS) (mustRun : Nat → Bool) (pathlist : List String)
    (destdir : String) (fc : Int) (ow : OverwritePolicy)
    (h : fs.freeSpace destdir = Option.none) :
    run false fs mustRun pathlist destdir fc ow =
      ⟨[], Outcome.crashed PyError.osError, fs, 0, 0⟩ := by
  unfold run get_free_space
  simp [h]

/-- Witness for C9's amended theorem at a concrete filesystem. -/
theorem c9_witness :
    fsC9.freeSpace "/dest" = Option.none ∧
    run false fsC9 (fun _ => false) [] "/dest" 0 OverwritePolicy.either =
      ⟨[], Outcome.crashed PyError.osError, fsC9, 0, 0⟩ :=
  ⟨rfl, c9_posix_statvfs_crash fsC9 (fun _ => false) [] "/dest" 0 OverwritePolicy.either rfl⟩

/-! ## Claim C10 -/

/-- Claim C10: on a stat failure, `get_file_size(…, ret=True)` falls through
its `except` branch and returns `None` (not 0); `copy_file_to_dest` therefore
holds `None` as `source_filesize`, and that `None` reaches both sinks the claim
names: the `Larger` size comparison (Python 2 orders `None` below every int,
the flag stays unassigned, and the following `if copy_file_flag:` raises
`UnboundLocalError`) and the `self.filesize += source_filesize` accumulation
after a successful copy (a `TypeError`). -/
theorem c10_none_size_flows (fs : FS) (src dst : String) (ow : OverwritePolicy)
    (fsize fcount : Nat) (h : fs.size src = Option.none) :
    get_file_size_ret fs src = Option.none ∧
    (fs.exists_ dst = false → fs.copyOk src dst = true →
      copy_file_to_dest fs src dst ow fsize fcount = Except.error PyError.typeError) ∧
    (fs.exists_ dst = true →
      copy_file_to_dest fs src dst OverwritePolicy.larger fsize fcount =
        Except.error PyError.unboundLocal) := by
  refine ⟨h, ?_, ?_⟩
  · intro hex hc
    unfold copy_file_to_dest overwriteDecision
    rw [hex]
    simp only [Bool.false_eq_true, if_false]
    unfold copyExec
    rw [mkdirsFor_copyOk, hc, if_pos rfl]
    have hret : get_file_size_ret fs src = Option.none := h
    rw [hret]
  · intro hex
    unfold copy_file_to_dest overwriteDecision
    rw [hex]
    have hret : get_file_size_ret fs src = Option.none := h
    simp [hret, pyGT]

/-- Witness for C10: a filesystem where the source cannot be statted, with a
fresh destination for the `TypeError` sink and an existing one for the
`UnboundLocalError` sink. -/
theorem c10_witness :
    fsC1.size "/gone" = Option.none ∧
    get_file_size_ret fsC1 "/gone" = Option.none ∧
    copy_file_to_dest fsC1 "/gone" "/new/t" OverwritePolicy.none 0 0 =
      Except.error PyError.typeError ∧
    copy_file_to_dest fsC1 "/gone" "/dst/a" OverwritePolicy.larger 0 0 =
      Except.error PyError.unboundLocal := by
  have h := c10_none_size_flows fsC1 "/gone" "/new/t" OverwritePolicy.none 0 0 rfl
  have h' := c10_none_size_flows fsC1 "/gone" "/dst/a" OverwritePolicy.larger 0 0 rfl
  exact ⟨rfl, h.1, h.2.1 rfl rfl, h'.2.2 rfl⟩

/-! ## Claim C4 -/

/-- Claim C4: the capacity check is strict.  With the scan totals `(c, b, l)`
and `a` bytes available, `b < a` proceeds to the copy phase (the first emitted
signal is the initial `copyProgress` and the outcome is never
InsufficientSpace); otherwise — including `b = a` exactly — the worker emits a
single `spaceProblem(requiredBytes = b, availableBytes = a)` signal and returns
without touching any file. -/
theorem c4_capacity_strict (win : Bool) (fs : FS) (mustRun : Nat → Bool)
    (pathlist : List String) (destdir : String) (fc : Int) (ow : OverwritePolicy)
    (a c b : Nat) (l : List String)
    (hfree : get_free_space win fs destdir = some a)
    (hscan : scanTotals fs pathlist = (c, b, l)) :
    (b < a →
      (run win fs mustRun pathlist destdir fc ow).events.head? =
        some (Event.copyProgress 0 0 c) ∧
      ∀ r v, (run win fs mustRun pathlist destdir fc ow).outcome ≠ Outcome.spaceProblem r v) ∧
    (¬ b < a →
      (run win fs mustRun pathlist destdir fc ow).events = [Event.spaceProblem b a] ∧
      (run win fs mustRun pathlist destdir fc ow).outcome = Outcome.spaceProblem b a ∧
      (run win fs mustRun pathlist destdir fc ow).copiedCount = 0 ∧
      (run win fs mustRun pathlist destdir fc ow).copiedBytes = 0 ∧
      (run win fs mustRun pathlist destdir fc ow).fs = fs) := by
  rw [run_eq win fs mustRun pathlist destdir fc ow a c b l hfree hscan]
  constructor
  · intro hlt
    rw [if_pos hlt]
    obtain ⟨extra, hev⟩ := copyLoop_events_append ⟨mustRun, fs.cwd, destdir, fc, ow, b, c⟩
      (sortedSet l) ⟨fs, 0, 0, 0⟩ [Event.copyProgress 0 0 c]
    cases hloop : copyLoop ⟨mustRun, fs.cwd, destdir, fc, ow, b, c⟩ (sortedSet l)
        ⟨fs, 0, 0, 0⟩ [Event.copyProgress 0 0 c] with
    | done st evs =>
      rw [hloop] at hev
      refine ⟨?_, by simp⟩
      simp only [LoopRes.events] at hev
      simp [hev]
    | cancelled st evs =>
      rw [hloop] at hev
      refine ⟨?_, by simp⟩
      simp only [LoopRes.events] at hev
      simp [hev]
    | crashed st evs e =>
      rw [hloop] at hev
      refine ⟨?_, by simp⟩
      simp only [LoopRes.events] at hev
      simp [hev]
  · intro hge
    rw [if_neg hge]
    exact ⟨rfl, rfl, rfl, rfl, rfl⟩

/-- Filesystem for the C4 witness: one 5-byte file, exactly 5 bytes free. -/
def fsC4 : FS :=
  { exists_ := fun _ => false, isfile := fun p => p = "/s/x"
    size := fun p => if p = "/s/x" then some 5 else Option.none
    mtime := fun _ => Option.none
    freeSpace := fun p => if p = "/d" then some 5 else Option.none
    winFree := fun _ => 0, mkdirOk := fun _ => true, copyOk := fun _ _ => true
    walkFiles := fun _ => [], cwd := "/" }

/-- Witness for C4 at the exact boundary `totalBytes = availableBytes = 5`:
the strict comparison routes to InsufficientSpace. -/
theorem c4_witness :
    (run false fsC4 (fun _ => true) ["/s/x"] "/d" 0 OverwritePolicy.none).events =
      [Event.spaceProblem 5 5] ∧
    (run false fsC4 (fun _ => true) ["/s/x"] "/d" 0 OverwritePolicy.none).outcome =
      Outcome.spaceProblem 5 5 ∧
    (run false fsC4 (fun _ => true) ["/s/x"] "/d" 0 OverwritePolicy.none).copiedCount = 0 ∧
    (run false fsC4 (fun _ => true) ["/s/x"] "/d" 0 OverwritePolicy.none).copiedBytes = 0 ∧
    (run false fsC4 (fun _ => true) ["/s/x"] "/d" 0 OverwritePolicy.none).fs = fsC4 :=
  (c4_capacity_strict false fsC4 (fun _ => true) ["/s/x"] "/d" 0 OverwritePolicy.none
    5 1 5 ["/s/x"] rfl rfl).2 (by decide)

/-! ## Claim C6 -/

/-- Whether a signal is one of the stream's terminal markers (`spaceProblem` or
`copyComplete`); a cancelled or crashed worker returns without emitting one. -/
def Event.isTerminal : Event → Bool
  | Event.copyProgress _ _ _ => false
  | Event.spaceProblem _ _ => true
  | Event.copyComplete _ => true

/-- The copy loop emits only progress signals: it adds no terminal event to the
accumulator. -/
theorem copyLoop_no_terminal (ctx : Ctx) :
    ∀ (files : List String) (st : CopySt) (evs : List Event),
      (copyLoop ctx files st evs).events.filter Event.isTerminal =
        evs.filter Event.isTerminal := by
  intro files
  induction files with
  | nil => intro st evs; rfl
  | cons f rest ih =>
    intro st evs
    unfold copyLoop
    cases hstep : copyStep ctx f st with
    | ok st' oev =>
      obtain ⟨-, -, hev⟩ := copyStep_ok ctx f st st' oev hstep
      cases oev with
      | some ev =>
        have hev' := hev ev rfl
        subst hev'
        rw [ih st' _]
        simp [Event.isTerminal]
      | none => exact ih st' evs
    | cancelled => rfl
    | crashed e => rfl

/-- Cooperative cancellation (the part of C6 the code satisfies).  If the
cancellation flag is already cleared at the first per-file check (read index
0), then — even with a non-empty scanned file list — no file is started: the
copy counters stay at zero, the filesystem is untouched, the only emitted
signal is the initial `copyProgress`, and the job ends in the Cancelled
terminal state (the single terminal outcome of this run). -/
theorem c6_cancel_before_first_file (win : Bool) (fs : FS) (mustRun : Nat → Bool)
    (pathlist : List String) (destdir : String) (fc : Int) (ow : OverwritePolicy)
    (a c b : Nat) (l : List String)
    (hfree : get_free_space win fs destdir = some a)
    (hscan : scanTotals fs pathlist = (c, b, l))
    (hlt : b < a) (hne : sortedSet l ≠ []) (hcancel : mustRun 0 = false) :
    (run win fs mustRun pathlist destdir fc ow).outcome = Outcome.cancelled ∧
    (run win fs mustRun pathlist destdir fc ow).copiedCount = 0 ∧
    (run win fs mustRun pathlist destdir fc ow).copiedBytes = 0 ∧
    (run win fs mustRun pathlist destdir fc ow).events = [Event.copyProgress 0 0 c] ∧
    (run win fs mustRun pathlist destdir fc ow).fs = fs := by
  rw [run_eq win fs mustRun pathlist destdir fc ow a c b l hfree hscan, if_pos hlt]
  obtain ⟨f, rest, hl⟩ := List.exists_cons_of_ne_nil hne
  rw [hl]
  have hstep : copyStep ⟨mustRun, fs.cwd, destdir, fc, ow, b, c⟩ f ⟨fs, 0, 0, 0⟩ =
      StepRes.cancelled := by
    unfold copyStep
    simp [hcancel]
  unfold copyLoop
  rw [hstep]
  exact ⟨rfl, rfl, rfl, rfl, rfl⟩

/-- Filesystem for the C6 witness: a 1-byte file with ample space. -/
def fsC6 : FS :=
  { exists_ := fun _ => false, isfile := fun p => p = "/s/x"
    size := fun p => if p = "/s/x" then some 1 else Option.none
    mtime := fun _ => Option.none
    freeSpace := fun p => if p = "/d" then some 10 else Option.none
    winFree := fun _ => 0, mkdirOk := fun _ => true, copyOk := fun _ _ => true
    walkFiles := fun _ => [], cwd := "/" }

/-- Claim C6, counterexample: the claim says every job's event stream ends in
exactly one terminal event.  A job cancelled before its first (existing) file
emits exactly one signal — the initial progress event — and then the worker
just returns: the stream contains zero terminal events and does not end in
one. -/
theorem c6_counterexample :
    (run false fsC6 (fun _ => false) ["/s/x"] "/d" 0 OverwritePolicy.none).events =
      [Event.copyProgress 0 0 1] ∧
    (run false fsC6 (fun _ => false) ["/s/x"] "/d" 0 OverwritePolicy.none).events.filter
      Event.isTerminal = [] ∧
    (run false fsC6 (fun _ => false) ["/s/x"] "/d" 0 OverwritePolicy.none).outcome =
      Outcome.cancelled := ⟨rfl, rfl, rfl⟩

/-- Claim C6 as amended: every run's event stream contains AT MOST one terminal
event — a cancelled (or crashed) worker emits none, it simply returns.  And if
the cancellation flag is set before any file starts in a job that reached the
copy phase, then even with a non-empty file list zero files are copied, the
filesystem is untouched, the job terminates in the Cancelled terminal state,
and the stream ends at the initial progress event with no terminal event;
cancellation is checked before each file, so no file is started after
cancel. -/
theorem c6_terminal_events_and_cancel :
    (∀ (win : Bool) (fs : FS) (mustRun : Nat → Bool) (pathlist : List String)
        (destdir : String) (fc : Int) (ow : OverwritePolicy),
      ((run win fs mustRun pathlist destdir fc ow).events.filter Event.isTerminal).length
        ≤ 1) ∧
    (∀ (win : Bool) (fs : FS) (mustRun : Nat → Bool) (pathlist : List String)
        (destdir : String) (fc : Int) (ow : OverwritePolicy) (a c b : Nat) (l : List String),
      get_free_space win fs destdir = some a →
      scanTotals fs pathlist = (c, b, l) →
      b < a → sortedSet l ≠ [] → mustRun 0 = false →
      (run win fs mustRun pathlist destdir fc ow).outcome = Outcome.cancelled ∧
      (run win fs mustRun pathlist destdir fc ow).copiedCount = 0 ∧
      (run win fs mustRun pathlist destdir fc ow).copiedBytes = 0 ∧
      (run win fs mustRun pathlist destdir fc ow).events = [Event.copyProgress 0 0 c] ∧
      (run win fs mustRun pathlist destdir fc ow).events.filter Event.isTerminal = [] ∧
      (run win fs mustRun pathlist destdir fc ow).fs = fs) := by
  constructor
  · intro win fs mustRun pathlist destdir fc ow
    cases hfree : get_free_space win fs destdir with
    | none =>
      have hr : run win fs mustRun pathlist destdir fc ow =
          ⟨[], Outcome.crashed PyError.osError, fs, 0, 0⟩ := by
        unfold run
        rw [hfree]
      rw [hr]
      simp
    | some a =>
      rcases hscan : scanTotals fs pathlist with ⟨c, rest⟩
      rcases rest with ⟨b, l⟩
      rw [run_eq win fs mustRun pathlist destdir fc ow a c b l hfree hscan]
      by_cases hlt : b < a
      · rw [if_pos hlt]
        have hnt := copyLoop_no_terminal ⟨mustRun, fs.cwd, destdir, fc, ow, b, c⟩
          (sortedSet l) ⟨fs, 0, 0, 0⟩ [Event.copyProgress 0 0 c]
        cases hloop : copyLoop ⟨mustRun, fs.cwd, destdir, fc, ow, b, c⟩ (sortedSet l)
            ⟨fs, 0, 0, 0⟩ [Event.copyProgress 0 0 c] with
        | done st evs =>
          rw [hloop] at hnt
          simp only [LoopRes.events] at hnt
          simp [List.filter_append, hnt, Event.isTerminal]
        | cancelled st evs =>
          rw [hloop] at hnt
          simp only [LoopRes.events] at hnt
          simp [hnt, Event.isTerminal]
        | crashed st evs e =>
          rw [hloop] at hnt
          simp only [LoopRes.events] at hnt
          simp [hnt, Event.isTerminal]
      · rw [if_neg hlt]
        simp [Event.isTerminal]
  · intro win fs mustRun pathlist destdir fc ow a c b l hfree hscan hlt hne hcancel
    obtain ⟨h1, h2, h3, h4, h5⟩ := c6_cancel_before_first_file win fs mustRun pathlist destdir
      fc ow a c b l hfree hscan hlt hne hcancel
    refine ⟨h1, h2, h3, h4, ?_, h5⟩
    rw [h4]
    rfl

/-- Witness for C6's amended theorem: the at-most-one-terminal bound and the
full cancellation conclusion at a concrete job (cancel set before any file
starts, non-empty file list). -/
theorem c6_witness :
    ((run false fsC6 (fun _ => false) ["/s/x"] "/d" 0 OverwritePolicy.none).events.filter
        Event.isTerminal).length ≤ 1 ∧
    ((run false fsC6 (fun _ => false) ["/s/x"] "/d" 0 OverwritePolicy.none).outcome =
        Outcome.cancelled ∧
      (run false fsC6 (fun _ => false) ["/s/x"] "/d" 0 OverwritePolicy.none).copiedCount = 0 ∧
      (run false fsC6 (fun _ => false) ["/s/x"] "/d" 0 OverwritePolicy.none).copiedBytes = 0 ∧
      (run false fsC6 (fun _ => false) ["/s/x"] "/d" 0 OverwritePolicy.none).events =
        [Event.copyProgress 0 0 1] ∧
      (run false fsC6 (fun _ => false) ["/s/x"] "/d" 0 OverwritePolicy.none).events.filter
        Event.isTerminal = [] ∧
      (run false fsC6 (fun _ => false) ["/s/x"] "/d" 0 OverwritePolicy.none).fs = fsC6) :=
  ⟨c6_terminal_events_and_cancel.1 false fsC6 (fun _ => false) ["/s/x"] "/d" 0
      OverwritePolicy.none,
    c6_terminal_events_and_cancel.2 false fsC6 (fun _ => false) ["/s/x"] "/d" 0
      OverwritePolicy.none 10 1 1 ["/s/x"] rfl rfl (by decide) (by decide) rfl⟩

/-! ## Claim C2 -/

/-- Filesystem for the C2 counterexample: one zero-byte file, 5 bytes free. -/
def fsC2 : FS :=
  { exists_ := fun _ => false, isfile := fun p => p = "/s/x"
    size := fun p => if p = "/s/x" then some 0 else Option.none
    mtime := fun _ => Option.none
    freeSpace := fun p => if p = "/d" then some 5 else Option.none
    winFree := fun _ => 0, mkdirOk := fun _ => true, copyOk := fun _ _ => true
    walkFiles := fun _ => [], cwd := "/" }

/-- Claim C2, counterexample: the claim says `totalBytes == 0` is guarded and
the engine emits 100 and finishes.  With one zero-byte file (`totalBytes = 0`,
non-empty list) the loop body divides by the scan total: the worker dies with
`ZeroDivisionError` after the initial progress signal — no guard, no `100`
emission, no terminal signal. -/
theorem c2_counterexample :
    (run false fsC2 (fun _ => true) ["/s/x"] "/d" 0 OverwritePolicy.none).events =
      [Event.copyProgress 0 0 1] ∧
    (run false fsC2 (fun _ => true) ["/s/x"] "/d" 0 OverwritePolicy.none).outcome =
      Outcome.crashed PyError.zeroDivision := ⟨rfl, rfl⟩

/-- Claim C2 as amended: (i) every per-file progress signal carries
`percentComplete = int((float(bytesCopiedSoFar) / float(totalBytes)) * 100)`
computed in IEEE-754 double arithmetic — which is NOT always
`floor(100 * bytesCopiedSoFar / totalBytes)`: the double rounding of the
quotient and of the product makes 29 bytes of 100 emit 28 where the floor is
29; (ii) there is NO `totalBytes == 0` guard — with a zero scan total, any
non-cancelled iteration ends in a crash (a `ZeroDivisionError` once the
per-file work itself did not already raise) instead of emitting 100; (iii) a
scan producing zero files completes the job immediately with zero counts (the
division is never reached because the loop body never runs). -/
theorem c2_progress_formula_and_no_zero_guard :
    (∀ (ctx : Ctx) (f : String) (st st' : CopySt) (ev : Event),
      copyStep ctx f st = StepRes.ok st' (some ev) →
      ev = Event.copyProgress (progress_percent st'.csize ctx.totalSize) st'.ccount
        ctx.totalCount) ∧
    (progress_percent 29 100 = 28 ∧ 100 * 29 / 100 = 29) ∧
    (∀ (ctx : Ctx) (f : String) (st : CopySt),
      ctx.totalSize = 0 → ctx.mustRun st.reads = true →
      ∃ e, copyStep ctx f st = StepRes.crashed e) ∧
    (∀ (win : Bool) (fs : FS) (mustRun : Nat → Bool) (pathlist : List String)
        (destdir : String) (fc : Int) (ow : OverwritePolicy) (a c b : Nat),
      get_free_space win fs destdir = some a →
      scanTotals fs pathlist = (c, b, []) →
      b < a →
      (run win fs mustRun pathlist destdir fc ow).events =
        [Event.copyProgress 0 0 c, Event.copyComplete c] ∧
      (run win fs mustRun pathlist destdir fc ow).outcome = Outcome.completed c ∧
      (run win fs mustRun pathlist destdir fc ow).copiedCount = 0 ∧
      (run win fs mustRun pathlist destdir fc ow).copiedBytes = 0 ∧ c = 0) := by
  refine ⟨?_, ⟨by decide, by decide⟩, ?_, ?_⟩
  · intro ctx f st st' ev h
    exact (copyStep_ok ctx f st st' (some ev) h).2.2 ev rfl
  · intro ctx f st hz hm
    unfold copyStep
    rw [hm]
    simp only [if_true]
    cases hd : get_dest_filepath ctx.cwd f ctx.destdir ctx.flattencount with
    | none => exact ⟨PyError.indexError, rfl⟩
    | some dst =>
      cases hc : copy_file_to_dest st.fs f dst ctx.overwrite st.csize st.ccount with
      | error e => exact ⟨e, by simp [hc]⟩
      | ok t =>
        obtain ⟨fs', csize', ccount'⟩ := t
        exact ⟨PyError.zeroDivision, by simp [hc, hz]⟩
  · intro win fs mustRun pathlist destdir fc ow a c b hfree hscan hlt
    have hc0 : c = 0 := by
      have hlen := scanTotals_count_eq_length fs pathlist
      rw [hscan] at hlen
      simpa using hlen
    subst hc0
    rw [run_eq win fs mustRun pathlist destdir fc ow a 0 b [] hfree hscan, if_pos hlt]
    exact ⟨rfl, rfl, rfl, rfl, rfl⟩

/-- Filesystem for the C2 witness, part (i): one 2-byte file out of a 5-byte
scan total. -/
def fsC2w : FS :=
  { exists_ := fun _ => false, isfile := fun p => p = "/s/x"
    size := fun p => if p = "/s/x" then some 2 else Option.none
    mtime := fun _ => Option.none
    freeSpace := fun p => if p = "/d" then some 50 else Option.none
    winFree := fun _ => 0, mkdirOk := fun _ => true, copyOk := fun _ _ => true
    walkFiles := fun _ => [], cwd := "/" }

/-- Filesystem for the C2 witness, part (iii): empty scan, 5 bytes free. -/
def fsC2e : FS :=
  { exists_ := fun _ => false, isfile := fun _ => false, size := fun _ => Option.none
    mtime := fun _ => Option.none
    freeSpace := fun p => if p = "/d" then some 5 else Option.none
    winFree := fun _ => 0, mkdirOk := fun _ => true, copyOk := fun _ _ => true
    walkFiles := fun _ => [], cwd := "/" }

/-- Witness for C2's amended theorem: (i) instantiated at a concrete iteration
that copies 2 of 5 bytes (the emitted percent is `floor(100·2/5) = 40`);
(ii) at a concrete context with zero scan total; (iii) at a concrete empty
scan. -/
theorem c2_witness :
    (Event.copyProgress 40 1 1 =
      Event.copyProgress (progress_percent 2 5) 1 1) ∧
    (∃ e, copyStep ⟨fun _ => true, "/", "/d", 0, OverwritePolicy.none, 0, 1⟩ "/s/x"
        ⟨fsC2w, 0, 0, 0⟩ = StepRes.crashed e) ∧
    ((run false fsC2e (fun _ => true) [] "/d" 0 OverwritePolicy.none).events =
      [Event.copyProgress 0 0 0, Event.copyComplete 0] ∧
     (run false fsC2e (fun _ => true) [] "/d" 0 OverwritePolicy.none).outcome =
      Outcome.completed 0 ∧
     (run false fsC2e (fun _ => true) [] "/d" 0 OverwritePolicy.none).copiedCount = 0 ∧
     (run false fsC2e (fun _ => true) [] "/d" 0 OverwritePolicy.none).copiedBytes = 0 ∧
     (0 : Nat) = 0) := by
  refine ⟨?_, ?_, ?_⟩
  · exact c2_progress_formula_and_no_zero_guard.1
      ⟨fun _ => true, "/", "/d", 0, OverwritePolicy.none, 5, 1⟩ "/s/x" ⟨fsC2w, 0, 0, 0⟩
      ⟨(mkdirsFor fsC2w (dirnameOf "/d/s/x")).afterCopy "/s/x" "/d/s/x", 2, 1, 2⟩
      (Event.copyProgress 40 1 1) rfl
  · exact c2_progress_formula_and_no_zero_guard.2.2.1
      ⟨fun _ => true, "/", "/d", 0, OverwritePolicy.none, 0, 1⟩ "/s/x" ⟨fsC2w, 0, 0, 0⟩ rfl rfl
  · exact c2_progress_formula_and_no_zero_guard.2.2.2 false fsC2e (fun _ => true) [] "/d" 0
      OverwritePolicy.none 5 0 0 rfl rfl (by decide)

/-! ## Claim C3 -/

/-- Filesystem for the C3 counterexample: the 5-byte file `/a/x` is reachable
both via the directory entry `/a` (walked) and via the file entry `/a/x`; the
destination has 7 bytes free — more than the 5 deduplicated bytes. -/
def fsC3 : FS :=
  { exists_ := fun _ => false, isfile := fun p => p = "/a/x"
    size := fun p => if p = "/a/x" then some 5 else Option.none
    mtime := fun _ => Option.none
    freeSpace := fun p => if p = "/d" then some 7 else Option.none
    winFree := fun _ => 0, mkdirOk := fun _ => true, copyOk := fun _ _ => true
    walkFiles := fun p => if p = "/a" then ["/a/x"] else [], cwd := "/" }

/-- Claim C3, counterexample: one file reachable via two source entries is
counted TWICE in the scan totals — `totalCount = 2 ≠ 1` deduplicated files and
`totalBytes = 10 ≠ 5` deduplicated bytes — and the doubled total is what the
capacity check consumes: with 7 bytes free (enough for the 5 deduplicated
bytes) the job is routed to InsufficientSpace with `requiredBytes = 10`. -/
theorem c3_counterexample :
    scanTotals fsC3 ["/a", "/a/x"] = (2, 10, ["/a/x", "/a/x"]) ∧
    sortedSet ["/a/x", "/a/x"] = ["/a/x"] ∧
    (2 : Nat) ≠ (sortedSet ["/a/x", "/a/x"]).length ∧
    (10 : Nat) ≠ ((sortedSet ["/a/x", "/a/x"]).map fun f => (fsC3.size f).getD 0).sum ∧
    (run false fsC3 (fun _ => true) ["/a", "/a/x"] "/d" 0 OverwritePolicy.none).events =
      [Event.spaceProblem 10 7] :=
  ⟨rfl, rfl, by decide, by decide, rfl⟩

/-- Claim C3 as amended: the file list iterated by the copy phase is
deduplicated (no duplicates, same membership as the accumulated list), but the
`totalCount` / `totalBytes` used for the capacity check and the progress
denominator are per-source-entry sums with no deduplication — a file reachable
via two entries contributes to them once per entry. -/
theorem c3_scan_totals :
    (∀ (fs : FS) (pathlist : List String),
      (scanTotals fs pathlist).1 =
        (pathlist.map fun p => (get_file_list_for_dir fs p).1).sum ∧
      (scanTotals fs pathlist).2.1 =
        (pathlist.map fun p => (get_file_list_for_dir fs p).2.1).sum) ∧
    (∀ l : List String, (sortedSet l).Nodup ∧ ∀ x, x ∈ sortedSet l ↔ x ∈ l) := by
  constructor
  · intro fs pathlist
    rw [scanTotals_eq]
    exact ⟨rfl, rfl⟩
  · intro l
    unfold sortedSet
    refine ⟨(List.perm_insertionSort _ l.dedup).nodup_iff.mpr (List.nodup_dedup l), ?_⟩
    intro x
    exact (List.perm_insertionSort _ l.dedup).mem_iff.trans List.mem_dedup

/-- Witness for C3's amended theorem at the counterexample's source selection:
the per-entry sums and the deduplicated iteration list, concretely. -/
theorem c3_witness :
    ((scanTotals fsC3 ["/a", "/a/x"]).1 =
        ((["/a", "/a/x"]).map fun p => (get_file_list_for_dir fsC3 p).1).sum ∧
      (scanTotals fsC3 ["/a", "/a/x"]).2.1 =
        ((["/a", "/a/x"]).map fun p => (get_file_list_for_dir fsC3 p).2.1).sum) ∧
    (sortedSet ["/a/x", "/a/x"]).Nodup ∧
    ("/a/x" ∈ sortedSet ["/a/x", "/a/x"] ↔ "/a/x" ∈ (["/a/x", "/a/x"] : List String)) :=
  ⟨c3_scan_totals.1 fsC3 ["/a", "/a/x"],
    (c3_scan_totals.2 ["/a/x", "/a/x"]).1,
    (c3_scan_totals.2 ["/a/x", "/a/x"]).2 "/a/x"⟩

/-! ## Claim C8 -/

/-- Filesystem for the C8 counterexample: one 5-byte source whose destination
`/d/s/x` already exists; overwrite policy `None` skips it. -/
def fsC8 : FS :=
  { exists_ := fun p => p = "/d/s/x", isfile := fun p => p = "/s/x"
    size := fun p => if p = "/s/x" then some 5 else Option.none
    mtime := fun _ => Option.none
    freeSpace := fun p => if p = "/d" then some 100 else Option.none
    winFree := fun _ => 0, mkdirOk := fun _ => true, copyOk := fun _ _ => true
    walkFiles := fun _ => [], cwd := "/" }

/-- Claim C8, counterexample: a skipped file still gets a progress signal, but
the signal's `filesCompleted` payload is `filecopy.filecount`, which counts
only successful copies.  For a one-file job whose file is skipped the emitted
`filesCompleted` sequence is `[0, 0]` — a duplicate, not strictly increasing —
and its final value 0 differs from the scan's `totalCount = 1`. -/
theorem c8_counterexample :
    filesCompletedSeq
      (run false fsC8 (fun _ => true) ["/s/x"] "/d" 0 OverwritePolicy.none).events = [0, 0] ∧
    (scanTotals fsC8 ["/s/x"]).1 = 1 ∧
    ¬ List.Chain' (· < ·) ([0, 0] : List Nat) ∧
    ([0, 0] : List Nat).getLast? ≠ some 1 :=
  ⟨rfl, rfl, by simp [List.chain'_cons], by decide⟩

/-- Monotonicity invariant of the copy loop: if the event accumulator's
`filesCompleted` payloads are non-decreasing and bounded by the current copied
count, they stay non-decreasing through the whole loop. -/
theorem copyLoop_counts_chain (ctx : Ctx) :
    ∀ (files : List String) (st : CopySt) (evs : List Event),
      List.Chain' (· ≤ ·) (filesCompletedSeq evs) →
      (∀ n, (filesCompletedSeq evs).getLast? = some n → n ≤ st.ccount) →
      List.Chain' (· ≤ ·) (filesCompletedSeq (copyLoop ctx files st evs).events) := by
  intro files
  induction files with
  | nil => intro st evs h _; exact h
  | cons f rest ih =>
    intro st evs hch hlast
    unfold copyLoop
    cases hstep : copyStep ctx f st with
    | ok st' oev =>
      obtain ⟨hcc, hsz, hev⟩ := copyStep_ok ctx f st st' oev hstep
      have hle : st.ccount ≤ st'.ccount := by rcases hcc with h | h <;> omega
      cases oev with
      | some ev =>
        have hev' := hev ev rfl
        subst hev'
        have hseq : filesCompletedSeq
            (evs ++ [Event.copyProgress (progress_percent st'.csize ctx.totalSize) st'.ccount
              ctx.totalCount]) = filesCompletedSeq evs ++ [st'.ccount] := by
          simp [filesCompletedSeq]
        apply ih st'
        · rw [hseq]
          rw [List.chain'_append]
          refine ⟨hch, List.chain'_singleton _, ?_⟩
          intro x hx y hy
          simp only [List.head?_cons, Option.mem_def, Option.some.injEq] at hy
          subst hy
          exact (hlast x hx).trans hle
        · intro n hn
          rw [hseq, List.getLast?_concat] at hn
          cases hn
          exact le_refl _
      | none =>
        exact ih st' evs hch fun n hn => (hlast n hn).trans hle
    | cancelled => exact hch
    | crashed e => exact hch

/-- Claim C8 as amended: the `filesCompleted` payload of each per-file progress
signal equals the number of files successfully copied so far — it grows by 1
exactly when the current file was copied and is unchanged when the file was
skipped or its copy failed — so across any run the emitted `filesCompleted`
sequence is non-decreasing (with possible repeats), and it tracks the copied
count rather than the scan's `totalCount`. -/
theorem c8_files_copied_counter :
    (∀ (ctx : Ctx) (f : String) (st st' : CopySt) (ev : Event),
      copyStep ctx f st = StepRes.ok st' (some ev) →
      ev = Event.copyProgress (progress_percent st'.csize ctx.totalSize) st'.ccount
        ctx.totalCount ∧
      (st'.ccount = st.ccount ∨ st'.ccount = st.ccount + 1)) ∧
    (∀ (win : Bool) (fs : FS) (mustRun : Nat → Bool) (pathlist : List String)
        (destdir : String) (fc : Int) (ow : OverwritePolicy),
      List.Chain' (· ≤ ·)
        (filesCompletedSeq (run win fs mustRun pathlist destdir fc ow).events)) := by
  constructor
  · intro ctx f st st' ev h
    obtain ⟨hcc, hsz, hev⟩ := copyStep_ok ctx f st st' (some ev) h
    exact ⟨hev ev rfl, hcc⟩
  · intro win fs mustRun pathlist destdir fc ow
    cases hfree : get_free_space win fs destdir with
    | none =>
      have hr : run win fs mustRun pathlist destdir fc ow =
          ⟨[], Outcome.crashed PyError.osError, fs, 0, 0⟩ := by
        unfold run
        rw [hfree]
      rw [hr]
      exact List.chain'_nil
    | some a =>
      rcases hscan : scanTotals fs pathlist with ⟨c, rest⟩
      rcases rest with ⟨b, l⟩
      rw [run_eq win fs mustRun pathlist destdir fc ow a c b l hfree hscan]
      by_cases hlt : b < a
      · rw [if_pos hlt]
        have base_chain :
            List.Chain' (· ≤ ·) (filesCompletedSeq [Event.copyProgress 0 0 c]) := by
          simp [filesCompletedSeq]
        have base_last : ∀ n,
            (filesCompletedSeq [Event.copyProgress 0 0 c]).getLast? = some n →
            n ≤ (⟨fs, 0, 0, 0⟩ : CopySt).ccount := by
          intro n hn
          simp [filesCompletedSeq] at hn
          omega
        have hmain := copyLoop_counts_chain ⟨mustRun, fs.cwd, destdir, fc, ow, b, c⟩
          (sortedSet l) ⟨fs, 0, 0, 0⟩ [Event.copyProgress 0 0 c] base_chain base_last
        cases hloop : copyLoop ⟨mustRun, fs.cwd, destdir, fc, ow, b, c⟩ (sortedSet l)
            ⟨fs, 0, 0, 0⟩ [Event.copyProgress 0 0 c] with
        | done st evs =>
          rw [hloop] at hmain
          simp only [LoopRes.events] at hmain
          simpa [filesCompletedSeq] using hmain
        | cancelled st evs =>
          rw [hloop] at hmain
          exact hmain
        | crashed st evs e =>
          rw [hloop] at hmain
          exact hmain
      · rw [if_neg hlt]
        simp [filesCompletedSeq]

/-- Witness for C8's amended theorem: part one at the concrete iteration that
copies the 2-byte file (the counter steps from 0 to 1 and the signal carries
it), part two at a concrete completed run. -/
theorem c8_witness :
    (Event.copyProgress 40 1 1 = Event.copyProgress (progress_percent 2 5) 1 1 ∧
      ((1 : Nat) = 0 ∨ (1 : Nat) = 0 + 1)) ∧
    List.Chain' (· ≤ ·) (filesCompletedSeq
      (run false fsC8 (fun _ => true) ["/s/x"] "/d" 0 OverwritePolicy.none).events) :=
  ⟨c8_files_copied_counter.1 ⟨fun _ => true, "/", "/d", 0, OverwritePolicy.none, 5, 1⟩
      "/s/x" ⟨fsC2w, 0, 0, 0⟩
      ⟨(mkdirsFor fsC2w (dirnameOf "/d/s/x")).afterCopy "/s/x" "/d/s/x", 2, 1, 2⟩
      (Event.copyProgress 40 1 1) rfl,
    c8_files_copied_counter.2 false fsC8 (fun _ => true) ["/s/x"] "/d" 0 OverwritePolicy.none⟩

end MClub
